import Mathlib

/-!
Verification development for the manga-translator repository.

The definitions below are a shallow embedding of `pipeline.py`
(`ComicTranslatePipeline.batch_process`, `skip_save`, `log_skipped_image`),
`modules/ocr/gpt_ocr.py` (`GPTOCR.process_image`, `_get_gpt_ocr`,
`_extract_text_from_response`) and `modules/translation/llm/gpt.py`
(`GPTTranslation._make_api_request`).

Modelling conventions:
* Images and text blocks are opaque to the orchestrator, so a decoded image is
  a `Nat` identifier and a pipeline-level text block is a `Nat` identifier.
* External collaborators (cv2.imread, the detector, the OCR engine, the
  translator, the HTTP layer) are oracles supplied as inputs: for each image
  the `ImgInput` record carries the outcome each collaborator would produce,
  and exceptions are `Except.error` values.
* Side effects (file writes, Qt signal emissions) are recorded as an ordered
  event trace.  Progress emissions other than the per-image start emission
  (line 162) are not traced; they carry no claim-relevant state.
* The cooperative cancellation flag (`current_worker.is_cancelled`) is an
  oracle `cancel : Nat -> Bool` giving the flag value at the k-th read; the
  state counts reads performed so far.
* `image_batches_data` is a Python dict keyed by image path and iterated in
  insertion order; it is modelled as a list in insertion order (source paths
  are assumed distinct, as they are keys).
-/

namespace MangaTranslator

/-- Events recorded by the pipeline model.  Output-file paths are abstracted
to the source image path that determines them. -/
inductive PEvent where
  /-- progress_update.emit(index, total, 0, 10, True), pipeline.py line 162 -/
  | begin (idx : Nat)
  /-- log_skipped_image: append the path to skipped_images.log (lines 142-145) -/
  | logSkip (path : String)
  /-- skip_save: write the given image under translated_images with the
  `_translated` suffix (lines 136-140) -/
  | skipSave (path : String) (img : Nat)
  /-- image_skipped.emit(path, stage, message) -/
  | imageSkipped (path stage msg : String)
  /-- translator.translate(combined, representative_image, extra_context) on a
  Translator built from the given source/target languages (lines 268, 277-279) -/
  | translateCall (src tgt : String) (img : Nat) (blocks : List Nat)
  /-- renderer.save_image of the final rendered image (line 408) -/
  | saveTranslated (path : String)
deriving DecidableEq, Repr

/-- The per-image dict `current_image_data` built at pipeline.py lines 241-248
(only the fields the claims depend on). -/
structure ImageRecord where
  imagePath : String
  originalIndex : Nat
  image : Nat
  blkList : List Nat
  sourceLang : String
  targetLang : String
  skipped : Bool
  errorMessage : String
deriving DecidableEq, Repr, Inhabited

instance {ε α : Type _} [DecidableEq ε] [DecidableEq α] :
    DecidableEq (Except ε α)
  | .ok a, .ok b =>
      if h : a = b then .isTrue (by rw [h])
      else .isFalse (by intro hh; cases hh; exact h rfl)
  | .ok _, .error _ => .isFalse (by intro h; cases h)
  | .error _, .ok _ => .isFalse (by intro h; cases h)
  | .error a, .error b =>
      if h : a = b then .isTrue (by rw [h])
      else .isFalse (by intro hh; cases hh; exact h rfl)

/-- Oracle describing what the external collaborators do for one input image:
`decoded` is the result of cv2.imread (line 180, `none` = unreadable);
`detected` is the detector's block list (line 190); `ocrResult` is the outcome
of `ocr.process` followed by `sort_blk_list` (lines 203-206, an exception or
the resulting sorted list); `parse` is the outcome of the json.loads calls in
the finalizer (lines 323-324). -/
structure ImgInput where
  path : String
  srcLang : String
  tgtLang : String
  decoded : Option Nat
  detected : List Nat
  ocrResult : Except String (List Nat)
  parse : Except String Unit
deriving Inhabited, DecidableEq

/-- Translation oracle: source language, target language, representative
image, combined block list -> exception or translated combined list. -/
def TranslateOracle := String → String → Nat → List Nat → Except String (List Nat)

/-- Cancellation oracle: value of `current_worker.is_cancelled` at the k-th
read of the flag. -/
def CancelOracle := Nat → Bool

/-- State threaded through `batch_process`: `recs` is `image_batches_data`
(insertion order), `batch` is `translation_batches` represented as the indices
into `recs` of the accumulated records, `events` the effect trace, `checks`
the number of cancellation-flag reads so far, `cancelled` whether a check
observed the flag set (loop broken). -/
structure LoopState where
  recs : List ImageRecord
  batch : List Nat
  events : List PEvent
  checks : Nat
  cancelled : Bool
deriving DecidableEq, Repr

def initState : LoopState := ⟨[], [], [], 0, false⟩

/-- `batch_size = 10`, pipeline.py line 155. -/
def batchSize : Nat := 10

/-- Python `l[a:b]` for natural bounds. -/
def sliceList (l : List α) (a b : Nat) : List α := (l.drop a).take (b - a)

/-- The fold at pipeline.py lines 254-265: build `combined_blk_list` and
`batch_indices_map`.  The dict is modelled as the association list of
`((start, end), record index)` pairs in insertion order. -/
def combineBatchGo (recs : List ImageRecord) :
    List Nat → Nat → List Nat → List ((Nat × Nat) × Nat) →
    List Nat × List ((Nat × Nat) × Nat)
  | [], _, combined, acc => (combined, acc)
  | i :: rest, cur, combined, acc =>
      let bl := (recs.getD i default).blkList
      combineBatchGo recs rest (cur + bl.length) (combined ++ bl)
        (acc ++ [((cur, cur + bl.length), i)])

def combineBatch (recs : List ImageRecord) (batch : List Nat) :
    List Nat × List ((Nat × Nat) × Nat) :=
  combineBatchGo recs batch 0 [] []

/-- Mark a record skipped with an error message (lines 286-287). -/
def markSkipped (msg : String) (r : ImageRecord) : ImageRecord :=
  { r with skipped := true, errorMessage := msg }

/-- The `try`/`except` around the single batched translation call,
pipeline.py lines 273-287: one call with the first record's languages and
decoded image; on success slice the result back into each range; on failure
mark every record of the batch skipped with the error message. -/
def flushPerform (translate : TranslateOracle) (recs : List ImageRecord)
    (batch : List Nat) : List ImageRecord × List PEvent :=
  let combined := (combineBatch recs batch).1
  let m := (combineBatch recs batch).2
  let first := recs.getD (batch.headD 0) default
  match translate first.sourceLang first.targetLang first.image combined with
  | .ok translated =>
      (m.foldl (fun rs p =>
          rs.set p.2 { rs.getD p.2 default with
                        blkList := sliceList translated p.1.1 p.1.2 }) recs,
       [.translateCall first.sourceLang first.targetLang first.image combined])
  | .error msg =>
      (batch.foldl (fun rs j => rs.set j (markSkipped msg (rs.getD j default))) recs,
       [.translateCall first.sourceLang first.targetLang first.image combined])

/-- The flush block at pipeline.py lines 253-289 (entered when the batch is
full or the current image is the last): if the combined list is empty or no
translator was built the translation call is skipped; otherwise the
cancellation flag is read (line 272; observing it set breaks out of the image
loop *without* clearing the batch), and then the call is performed.  In all
non-cancelled outcomes `translation_batches` is cleared (line 289). -/
def flushBlock (cancel : CancelOracle) (translate : TranslateOracle)
    (s : LoopState) : LoopState :=
  let combined := (combineBatch s.recs s.batch).1
  if combined.isEmpty ∨ s.batch.isEmpty then
    { s with batch := [] }
  else if cancel s.checks then
    { s with checks := s.checks + 1, cancelled := true }
  else
    { s with recs := (flushPerform translate s.recs s.batch).1,
             events := s.events ++ (flushPerform translate s.recs s.batch).2,
             checks := s.checks + 1, batch := [] }

/-- The events of the three-line skip treatment `skip_save` /
`image_skipped.emit` / `log_skipped_image`. -/
def skipEvents (path : String) (img : Nat) (stage msg : String) : List PEvent :=
  [.skipSave path img, .imageSkipped path stage msg, .logSkip path]

/-- One iteration of the main image loop, pipeline.py lines 160-289.
Cancellation checks are at lines 188, 192, 214, 226, 238 (and line 272 inside
`flushBlock`); a decode failure (lines 181-184) only logs the skip; an empty
detected block list or an OCR exception triggers the three-line skip
treatment; otherwise the record is accumulated (lines 241-250) and the flush
condition (line 253) is evaluated. -/
def stepImageBody (cancel : CancelOracle) (translate : TranslateOracle)
    (total idx : Nat) (inp : ImgInput) (s : LoopState) : LoopState :=
  match inp.decoded with
  | none => { s with events := s.events ++ [PEvent.logSkip inp.path] }
  | some img =>
    if cancel s.checks then { s with checks := s.checks + 1, cancelled := true } else
    let s := { s with checks := s.checks + 1 }
    if cancel s.checks then { s with checks := s.checks + 1, cancelled := true } else
    let s := { s with checks := s.checks + 1 }
    if inp.detected.isEmpty then
      { s with events := s.events ++ skipEvents inp.path img "Text Blocks" "" }
    else
      match inp.ocrResult with
      | .error msg =>
          { s with events := s.events ++ skipEvents inp.path img "OCR" msg }
      | .ok sorted =>
        if cancel s.checks then { s with checks := s.checks + 1, cancelled := true } else
        let s := { s with checks := s.checks + 1 }
        if cancel s.checks then { s with checks := s.checks + 1, cancelled := true } else
        let s := { s with checks := s.checks + 1 }
        if cancel s.checks then { s with checks := s.checks + 1, cancelled := true } else
        let s := { s with checks := s.checks + 1 }
        let record : ImageRecord :=
          { imagePath := inp.path, originalIndex := idx, image := img,
            blkList := sorted, sourceLang := inp.srcLang,
            targetLang := inp.tgtLang, skipped := false, errorMessage := "" }
        let s := { s with recs := s.recs ++ [record],
                          batch := s.batch ++ [s.recs.length] }
        if s.batch.length = batchSize ∨ idx = total - 1 then
          flushBlock cancel translate s
        else s

/-- One iteration of the main image loop: when the loop has already been
broken by a cancellation the image is not processed; otherwise the step-0
progress emission (line 162) is recorded and the body runs. -/
def stepImage (cancel : CancelOracle) (translate : TranslateOracle)
    (total idx : Nat) (inp : ImgInput) (s : LoopState) : LoopState :=
  if s.cancelled then s else
  stepImageBody cancel translate total idx inp
    { s with events := s.events ++ [PEvent.begin idx] }

/-- The main image loop (pipeline.py lines 160-289) starting from image
`idx`. -/
def runMainAux (cancel : CancelOracle) (translate : TranslateOracle)
    (total : Nat) : Nat → List ImgInput → LoopState → LoopState
  | _, [], s => s
  | idx, inp :: rest, s =>
      runMainAux cancel translate total (idx + 1) rest
        (stepImage cancel translate total idx inp s)

def runMainLoop (cancel : CancelOracle) (translate : TranslateOracle)
    (inputs : List ImgInput) : LoopState :=
  runMainAux cancel translate inputs.length 0 inputs initState

/-- One iteration of the post-translation processing loop, pipeline.py lines
298-411: records skipped during the batch (line 302) and records whose text
fails json.loads (lines 322-335) get the three-line skip treatment with stage
"Translator"; otherwise the record is finalized and its rendered image saved
(line 408).  Cancellation checks are at lines 350, 393 and 411. -/
def postStep (cancel : CancelOracle) (inputs : List ImgInput)
    (r : ImageRecord) (s : LoopState) : LoopState :=
  if s.cancelled then s else
  if r.skipped then
    { s with events :=
        s.events ++ skipEvents r.imagePath r.image "Translator" r.errorMessage }
  else
    let parse := (inputs.getD r.originalIndex default).parse
    match parse with
    | .error e =>
        { s with events := s.events ++
            skipEvents r.imagePath r.image "Translator" ("JSON Decode Error: " ++ e) }
    | .ok _ =>
      if cancel s.checks then { s with checks := s.checks + 1, cancelled := true } else
      let s := { s with checks := s.checks + 1 }
      if cancel s.checks then { s with checks := s.checks + 1, cancelled := true } else
      let s := { s with checks := s.checks + 1 }
      let s := { s with events := s.events ++ [PEvent.saveTranslated r.imagePath] }
      if cancel s.checks then { s with checks := s.checks + 1, cancelled := true } else
      { s with checks := s.checks + 1 }

def runPostAux (cancel : CancelOracle) (inputs : List ImgInput) :
    List ImageRecord → LoopState → LoopState
  | [], s => s
  | r :: rest, s => runPostAux cancel inputs rest (postStep cancel inputs r s)

/-- `batch_process` without the archiving pass: the main image loop followed
(when cancellation was not observed, line 292) by the post-translation loop
over `image_batches_data`. -/
def runPipeline (cancel : CancelOracle) (translate : TranslateOracle)
    (inputs : List ImgInput) : LoopState :=
  let s := runMainLoop cancel translate inputs
  if s.cancelled then s
  else if cancel s.checks then { s with checks := s.checks + 1, cancelled := true }
  else runPostAux cancel inputs s.recs { s with checks := s.checks + 1 }

/-!
## Archiving pass (pipeline.py lines 418-460)
-/

/-- Oracle describing one archive of `file_handler.archive_info` in the
archiving pass: `makeResult` is the outcome of `make(...)` (line 446, an
exception propagates — there is no `try` around the call); `saveDirExists`
and `checkFromEmpty` are the outcomes of the `os.path.exists(save_dir)` and
`is_directory_empty(check_from)` tests (lines 455 and 459). -/
structure ArchiveInput where
  name : String
  makeResult : Except String Unit
  saveDirExists : Bool
  checkFromEmpty : Bool
deriving Inhabited

/-- Events of the archiving pass.  `progressA i step` is the
progress_update.emit for archive `i` with step `step` of 3 (lines 425, 439,
449); `makeCall` is the `make(...)` invocation; `rmSaveDir` and `rmCheckFrom`
are the two `shutil.rmtree` cleanups (lines 456 and 460). -/
inductive AEvent where
  | progressA (i step : Nat)
  | makeCall (i : Nat) (name : String)
  | rmSaveDir (i : Nat) (name : String)
  | rmCheckFrom (i : Nat) (name : String)
deriving DecidableEq, Repr

/-- State of the archiving pass: the event trace, the number of
cancellation-flag reads, whether a read observed the flag set (`break`), and
a pending uncaught exception (which aborts the whole pass). -/
structure ArchState where
  events : List AEvent
  checks : Nat
  halted : Bool
  error : Option String
deriving DecidableEq, Repr

def archInit : ArchState := ⟨[], 0, false, none⟩

/-- One iteration of the archiving loop (pipeline.py lines 422-460).
Cancellation is read after the step-1 emission (line 426), after the step-2
emission (line 440), and after `make` succeeds (line 450) — the last read
sits *before* the `shutil.rmtree` cleanups, so a cancellation observed there
stops the pass with the archive created but its temporary directory still in
place.  An exception from `make` is not caught and aborts the pass. -/
def stepArchive (cancel : CancelOracle) (i : Nat) (a : ArchiveInput)
    (s : ArchState) : ArchState :=
  if s.halted ∨ s.error.isSome then s else
  let s := { s with events := s.events ++ [AEvent.progressA i 1] }
  if cancel s.checks then { s with checks := s.checks + 1, halted := true } else
  let s := { s with checks := s.checks + 1 }
  let s := { s with events := s.events ++ [AEvent.progressA i 2] }
  if cancel s.checks then { s with checks := s.checks + 1, halted := true } else
  let s := { s with checks := s.checks + 1 }
  let s := { s with events := s.events ++ [AEvent.makeCall i a.name] }
  match a.makeResult with
  | .error e => { s with error := some e }
  | .ok _ =>
    let s := { s with events := s.events ++ [AEvent.progressA i 3] }
    if cancel s.checks then { s with checks := s.checks + 1, halted := true } else
    let s := { s with checks := s.checks + 1 }
    let s := if a.saveDirExists
             then { s with events := s.events ++ [AEvent.rmSaveDir i a.name] }
             else s
    if a.checkFromEmpty
    then { s with events := s.events ++ [AEvent.rmCheckFrom i a.name] }
    else s

def runArchAux (cancel : CancelOracle) :
    Nat → List ArchiveInput → ArchState → ArchState
  | _, [], s => s
  | i, a :: rest, s => runArchAux cancel (i + 1) rest (stepArchive cancel i a s)

/-- The archiving pass over `archive_info` (pipeline.py lines 419-460). -/
def runArchives (cancel : CancelOracle) (archives : List ArchiveInput) :
    ArchState :=
  runArchAux cancel 0 archives archInit

/-!
## GPTOCR (modules/ocr/gpt_ocr.py)
-/

/-- A TextBlock as used by `GPTOCR.process_image`: the detection box
`xyxy`, the optional bubble box `bubble_xyxy`, and the recognized text.
(The TextBlock class itself lives in `modules/utils/textblock.py`, which is
not part of the sources; only the fields read and written by
`process_image` are modelled.) -/
structure OcrBlk where
  xyxy : Int × Int × Int × Int
  bubble : Option (Int × Int × Int × Int)
  text : String
deriving DecidableEq, Repr, Inhabited

/-- np.ndarray shape of the input image: `width = img.shape[1]`,
`height = img.shape[0]`. -/
structure OImage where
  width : Int
  height : Int
deriving DecidableEq, Repr

/-- A parsed JSON body of a chat-completions response, restricted to the
keys read by `_extract_text_from_response` (gpt_ocr.py lines 131-176) and
`_make_api_request` (gpt.py lines 114-149): the optional `error` object, the
optional `choices` array, and the optional top-level `content` / `response`
strings.  `raw` stands for `json.dumps(response_data)`. -/
structure RespChoice where
  messageContent : Option String
  text : Option String
deriving DecidableEq, Repr

structure RespErrorInfo where
  message : Option String
  code : Option (Sum Int String)
  providerName : Option String
deriving DecidableEq, Repr

structure RespData where
  error : Option RespErrorInfo
  choices : Option (List RespChoice)
  content : Option String
  response : Option String
  raw : String
deriving DecidableEq, Repr

/-- An HTTP response: status code and parsed JSON body. -/
structure HttpResp where
  status : Nat
  body : RespData
deriving DecidableEq, Repr

/-- Python `sub in s` for strings, via `str.split`. -/
def strContains (s sub : String) : Bool := (s.splitOn sub).length > 1

/-- Python `code == 429` where `code` is either the JSON number or the
default string "unknown". -/
def codeIs429 : Sum Int String → Bool
  | .inl n => n = 429
  | .inr _ => false

def codeText : Sum Int String → String
  | .inl n => toString n
  | .inr s => s

/-- `GPTOCR._extract_text_from_response` (gpt_ocr.py lines 131-176). -/
def extractTextFromResponse (d : RespData) : String :=
  match d.error with
  | some info =>
      let errorMessage := info.message.getD "Unknown API error"
      let errorCode := info.code.getD (Sum.inr "unknown")
      let errMsg :=
        if codeIs429 errorCode ∨ strContains errorMessage.toLower "rate limit" then
          "Rate limit exceeded for " ++ info.providerName.getD "API provider" ++
            ": " ++ errorMessage
        else
          "API error (" ++ codeText errorCode ++ "): " ++ errorMessage
      "[OCR Error: " ++ errMsg ++ "]"
  | none =>
    let fallb : String :=
      match d.content with
      | some t => t
      | none =>
        match d.response with
        | some t => t
        | none => "[OCR Error: Unrecognized API response format]"
    match d.choices with
    | some (c :: _) =>
        match c.messageContent with
        | some t => t
        | none =>
          match c.text with
          | some t => t
          | none => fallb
    | _ => fallb

/-- `GPTOCR._get_gpt_ocr` (gpt_ocr.py lines 75-129).  `request` is the
oracle for the `requests.post` call (and `response.json()` parsing): an
exception or the HTTP response for the given base64 payload.  An empty
`apiKey` raises (outside the `try`); every exception inside the `try` is
caught and turns into the return value `""`, as does a non-200 status. -/
def getGptOcr (apiKey : String) (request : String → Except String HttpResp)
    (b64 : String) : Except String String :=
  if apiKey.isEmpty then
    .error "API key not initialized. Call initialize() first."
  else
    .ok (match request b64 with
      | .error _ => ""
      | .ok resp =>
        if resp.status = 200 then
          let t := extractTextFromResponse resp.body
          if t.contains '\n' then t.replace "\n" " " else t
        else "")

/-- Coordinate validity test of gpt_ocr.py line 61. -/
def validCoords (c : Int × Int × Int × Int) (img : OImage) : Bool :=
  c.1 < c.2.2.1 ∧ c.2.1 < c.2.2.2 ∧ 0 ≤ c.1 ∧ 0 ≤ c.2.1 ∧
    c.2.2.1 ≤ img.width ∧ c.2.2.2 ≤ img.height

/-- The coordinates the code uses for a block: `bubble_xyxy` when present,
otherwise `adjust_text_line_coordinates(xyxy, expansion, expansion, img)`
(gpt_ocr.py lines 50-58).  `adjust_text_line_coordinates` lives in
`modules/utils/textblock.py`, which is not part of the sources, so it is an
oracle argument. -/
def effCoords (adjust : Int × Int × Int × Int → Int × Int × Int × Int)
    (blk : OcrBlk) : Int × Int × Int × Int :=
  match blk.bubble with
  | some c => c
  | none => adjust blk.xyxy

/-- The body of the per-block loop of `GPTOCR.process_image` (gpt_ocr.py
lines 47-71): compute the coordinates; when they are valid, crop and encode
(the `encode` oracle stands for `cv2.imencode` + `base64.b64encode`, an
exception or the base64 string) and run `_get_gpt_ocr`; any exception in the
`try` is caught and sets `blk.text = ""`.  When the coordinate test fails,
nothing in the body assigns `blk.text`, so the block is left unchanged. -/
def ocrBlockStep (apiKey : String)
    (adjust : Int × Int × Int × Int → Int × Int × Int × Int)
    (encode : Int × Int × Int × Int → Except String String)
    (request : String → Except String HttpResp)
    (img : OImage) (blk : OcrBlk) : OcrBlk :=
  let coords := effCoords adjust blk
  if validCoords coords img then
    match encode coords with
    | .error _ => { blk with text := "" }
    | .ok b64 =>
      match getGptOcr apiKey request b64 with
      | .ok t => { blk with text := t }
      | .error _ => { blk with text := "" }
  else blk

/-- `GPTOCR.process_image` (gpt_ocr.py lines 36-73): process every block of
the list in place and return the list. -/
def processImage (apiKey : String)
    (adjust : Int × Int × Int × Int → Int × Int × Int × Int)
    (encode : Int × Int × Int × Int → Except String String)
    (request : String → Except String HttpResp)
    (img : OImage) (blkList : List OcrBlk) : List OcrBlk :=
  blkList.map (ocrBlockStep apiKey adjust encode request img)

/-!
## GPTTranslation (modules/translation/llm/gpt.py)
-/

/-- The exceptions `_make_api_request` can raise: `RuntimeError` or
`ValueError`. -/
inductive ApiErr where
  | runtime (msg : String)
  | value (msg : String)
deriving DecidableEq, Repr

/-- A `requests.exceptions.RequestException`: its message, and the attached
response when there is one — `(status code, parsed json if `e.response.json()`
succeeds)` (gpt.py lines 151-171). -/
structure ReqErr where
  msg : String
  response : Option (Nat × Option RespData)
deriving Inhabited

/-- The `except requests.exceptions.RequestException` handler of
`_make_api_request` (gpt.py lines 151-172): build `error_msg` from the
attached response when available and raise `RuntimeError(error_msg)`. -/
def formatRequestError (e : ReqErr) : String :=
  let base := "API request failed: " ++ e.msg
  match e.response with
  | none => base
  | some (status, parsed) =>
    match parsed with
    | none => base ++ " - Status code: " ++ toString status
    | some details =>
      match details.error with
      | some info =>
          let errorMessage := info.message.getD "Unknown error"
          let errorCode := info.code.getD (Sum.inl (Int.ofNat status))
          if codeIs429 errorCode ∨ strContains errorMessage.toLower "rate limit" then
            "Rate limit exceeded for " ++ info.providerName.getD "API provider" ++
              ": " ++ errorMessage
          else
            "API error (" ++ codeText errorCode ++ "): " ++ errorMessage
      | none => base ++ " - " ++ details.raw

/-- The response-body processing of `_make_api_request` after a successful
request with a non-error HTTP status (gpt.py lines 114-149): an API-reported
`error` object raises `RuntimeError`; otherwise the text is extracted from
`choices[0].message.content`, `choices[0].text`, top-level `content` or
top-level `response`, and an unrecognized format raises `ValueError`. -/
def parseChatBody (d : RespData) : Except ApiErr String :=
  match d.error with
  | some info =>
      let errorMessage := info.message.getD "Unknown API error"
      let errorCode := info.code.getD (Sum.inr "unknown")
      if codeIs429 errorCode ∨ strContains errorMessage.toLower "rate limit" then
        .error (.runtime ("Rate limit exceeded for " ++
          info.providerName.getD "API provider" ++ ": " ++ errorMessage))
      else
        .error (.runtime ("API error (" ++ codeText errorCode ++ "): " ++
          errorMessage))
  | none =>
    let fallb : Except ApiErr String :=
      match d.content with
      | some t => .ok t
      | none =>
        match d.response with
        | some t => .ok t
        | none => .error (.value
            "Couldn't extract text from API response: response format not recognized")
    match d.choices with
    | some (c :: _) =>
        match c.messageContent with
        | some t => .ok t
        | none =>
          match c.text with
          | some t => .ok t
          | none => fallb
    | _ => fallb

/-- `GPTTranslation._make_api_request` (gpt.py lines 94-172).  `outcome` is
the oracle for `requests.post` + `response.json()`: either a
`RequestException` or the HTTP response.  `raise_for_status()` (line 111)
raises an `HTTPError` (a `RequestException` carrying the response) for a 4xx
or 5xx status, which the handler at line 151 converts to `RuntimeError`. -/
def makeApiRequest (outcome : Except ReqErr HttpResp) : Except ApiErr String :=
  match outcome with
  | .error e => .error (.runtime (formatRequestError e))
  | .ok resp =>
    if 400 ≤ resp.status then
      .error (.runtime (formatRequestError
        { msg := toString resp.status ++ " Error for url",
          response := some (resp.status, some resp.body) }))
    else
      parseChatBody resp.body

/-!
## Vocabulary used by the theorem statements
-/

/-- The `blk_list` lengths of the records of a batch, in append order. -/
def batchLens (recs : List ImageRecord) (batch : List Nat) : List Nat :=
  batch.map (fun i => (recs.getD i default).blkList.length)

/-- The list of half-open ranges of the given lengths laid out contiguously
starting at `cur`. -/
def rangesFrom (cur : Nat) : List Nat → List (Nat × Nat)
  | [] => []
  | l :: ls => (cur, cur + l) :: rangesFrom (cur + l) ls

/-- `contiguousFrom a rs` holds when the ranges `rs` tile `[a, e)` exactly in
order: each range starts where the previous one ended (no gaps, no overlaps)
and is well formed (start ≤ end). -/
def contiguousFrom : Nat → List (Nat × Nat) → Bool
  | _, [] => true
  | a, (s, e) :: rest => (s = a) && (a ≤ e) && contiguousFrom e rest

/-- Whether the trace contains a `skip_save` write (an original-image copy
under `translated_images`) for the given source path. -/
def hasSkipSaveFor (p : String) (evs : List PEvent) : Bool :=
  evs.any fun e =>
    match e with
    | .skipSave q _ => q = p
    | _ => false

/-- A trace is skip-save-paired when every `image_skipped` emission for a
path is accompanied by a `skip_save` write of an original-image copy for
that same path. -/
def eventsPaired (evs : List PEvent) : Prop :=
  ∀ p st m, PEvent.imageSkipped p st m ∈ evs → hasSkipSaveFor p evs = true

/-- Whether the trace contains any translation call. -/
def hasTranslateCall (evs : List PEvent) : Bool :=
  evs.any fun e =>
    match e with
    | .translateCall _ _ _ _ => true
    | _ => false

def exceptIsOk : Except ε α → Bool
  | .ok _ => true
  | .error _ => false

/-- Whether `_extract`-style text extraction succeeds on a response body:
`choices[0].message.content`, `choices[0].text`, top-level `content` or
top-level `response` is present. -/
def hasExtractableText (d : RespData) : Bool :=
  match d.choices with
  | some (c :: _) =>
      c.messageContent.isSome || c.text.isSome || d.content.isSome || d.response.isSome
  | _ => d.content.isSome || d.response.isSome

/-- The request outcomes from which `_make_api_request` can extract text:
the request raised no exception, the HTTP status is not an error status, the
body carries no API error object, and a recognized text field is present. -/
def requestExtractsText : Except ReqErr HttpResp → Bool
  | .error _ => false
  | .ok resp =>
      decide (resp.status < 400) && resp.body.error.isNone &&
        hasExtractableText resp.body

/-!
## Lemmas about the batch combination fold
-/

theorem combineBatchGo_spec (recs : List ImageRecord) :
    ∀ (batch : List Nat) (cur : Nat) (combined : List Nat)
      (acc : List ((Nat × Nat) × Nat)),
      combineBatchGo recs batch cur combined acc =
        (combined ++ (batch.map (fun i => (recs.getD i default).blkList)).flatten,
         acc ++ (rangesFrom cur (batchLens recs batch)).zip batch)
  | [], cur, combined, acc => by simp [combineBatchGo, batchLens, rangesFrom]
  | i :: rest, cur, combined, acc => by
      rw [combineBatchGo, combineBatchGo_spec recs rest]
      simp [batchLens, rangesFrom, List.zip_cons_cons]

theorem rangesFrom_map_sub (cur : Nat) (lens : List Nat) :
    (rangesFrom cur lens).map (fun p => p.2 - p.1) = lens := by
  induction lens generalizing cur with
  | nil => simp [rangesFrom]
  | cons l ls ih => simp [rangesFrom, ih]

theorem contiguousFrom_rangesFrom (cur : Nat) (lens : List Nat) :
    contiguousFrom cur (rangesFrom cur lens) = true := by
  induction lens generalizing cur with
  | nil => simp [rangesFrom, contiguousFrom]
  | cons l ls ih => simp [rangesFrom, contiguousFrom, ih]

theorem rangesFrom_getLast (cur : Nat) (lens : List Nat) :
    ((rangesFrom cur lens).map (fun p => p.2)).getLastD cur = cur + lens.sum := by
  induction lens generalizing cur with
  | nil => simp [rangesFrom]
  | cons l ls ih =>
      rw [rangesFrom, List.map_cons, List.getLastD_cons, ih, List.sum_cons,
        Nat.add_assoc]

theorem rangesFrom_length (cur : Nat) (lens : List Nat) :
    (rangesFrom cur lens).length = lens.length := by
  induction lens generalizing cur with
  | nil => rfl
  | cons l ls ih => simp [rangesFrom, ih]

/-- Claim C1: during a flush, the `(start, end)` ranges of
`batch_indices_map` partition `[0, len(combined_blk_list))` contiguously
with no gaps and no overlaps, in the order the records were appended to the
batch; `end - start` equals the length of the corresponding record's
`blk_list` at accumulation time; and the sum of all range lengths equals
`len(combined_blk_list)`. -/
theorem c1_batch_indices_partition (recs : List ImageRecord) (batch : List Nat) :
    (combineBatch recs batch).2.map Prod.snd = batch ∧
    (combineBatch recs batch).2.map Prod.fst =
      rangesFrom 0 (batchLens recs batch) ∧
    (combineBatch recs batch).2.map (fun p => p.1.2 - p.1.1) =
      batchLens recs batch ∧
    (combineBatch recs batch).1.length = (batchLens recs batch).sum ∧
    ((combineBatch recs batch).2.map (fun p => p.1.2 - p.1.1)).sum =
      (combineBatch recs batch).1.length ∧
    contiguousFrom 0 ((combineBatch recs batch).2.map Prod.fst) = true ∧
    (((combineBatch recs batch).2.map Prod.fst).map (fun p => p.2)).getLastD 0 =
      (combineBatch recs batch).1.length := by
  have hspec := combineBatchGo_spec recs batch 0 [] []
  have hlen : (rangesFrom 0 (batchLens recs batch)).length = batch.length := by
    rw [rangesFrom_length]; simp [batchLens]
  have hfst : (combineBatch recs batch).2.map Prod.fst =
      rangesFrom 0 (batchLens recs batch) := by
    rw [combineBatch, hspec]
    simp [List.map_fst_zip _ _ (le_of_eq hlen)]
  have hsnd : (combineBatch recs batch).2.map Prod.snd = batch := by
    rw [combineBatch, hspec]
    simp [List.map_snd_zip _ _ (ge_of_eq hlen)]
  have hclen : (combineBatch recs batch).1.length = (batchLens recs batch).sum := by
    rw [combineBatch, hspec]
    simp [List.length_flatten, batchLens, Function.comp_def]
  have hsub : (combineBatch recs batch).2.map (fun p => p.1.2 - p.1.1) =
      batchLens recs batch := by
    have hmm : (combineBatch recs batch).2.map (fun p => p.1.2 - p.1.1) =
        ((combineBatch recs batch).2.map Prod.fst).map (fun p => p.2 - p.1) := by
      simp [List.map_map, Function.comp_def]
    rw [hmm, hfst, rangesFrom_map_sub]
  refine ⟨hsnd, hfst, hsub, hclen, ?_, ?_, ?_⟩
  · rw [hsub, hclen]
  · rw [hfst]; exact contiguousFrom_rangesFrom 0 _
  · rw [hfst, hclen]
    simpa using rangesFrom_getLast 0 (batchLens recs batch)

/-!
## GPTTranslation claims
-/

theorem parseChatBody_isOk (d : RespData) :
    exceptIsOk (parseChatBody d) = (d.error.isNone && hasExtractableText d) := by
  obtain ⟨err, choices, content, response, raw⟩ := d
  cases err with
  | some info =>
      simp only [parseChatBody]
      split <;> simp [exceptIsOk, hasExtractableText]
  | none =>
    cases choices with
    | none =>
        cases content <;> cases response <;>
          simp [parseChatBody, hasExtractableText, exceptIsOk]
    | some cs =>
      cases cs with
      | nil =>
          cases content <;> cases response <;>
            simp [parseChatBody, hasExtractableText, exceptIsOk]
      | cons c rest =>
          obtain ⟨mc, tx⟩ := c
          cases mc <;> cases tx <;> cases content <;> cases response <;>
            simp [parseChatBody, hasExtractableText, exceptIsOk]

/-- Claim C10: `_make_api_request` returns normally exactly when translated
text could be extracted from the response — the request raised no exception,
the HTTP status is not an error status, the body carries no API-reported
error object (including rate limiting) and a recognized text field is
present; in every other case it raises (`RuntimeError` or `ValueError`, the
only constructors of `ApiErr`) rather than returning a fallback string. -/
theorem c10_make_api_request_ok_iff_extracted (outcome : Except ReqErr HttpResp) :
    exceptIsOk (makeApiRequest outcome) = requestExtractsText outcome := by
  cases outcome with
  | error e => rfl
  | ok resp =>
      simp only [makeApiRequest, requestExtractsText]
      by_cases h : 400 ≤ resp.status
      · rw [if_pos h]
        simp [exceptIsOk, Nat.not_lt.mpr h]
      · rw [if_neg h, parseChatBody_isOk]
        have hlt : resp.status < 400 := Nat.not_le.mp h
        simp [hlt]

/-!
## GPTOCR claims
-/

/-- Claim C9 counterexample: a block whose coordinates fail the validity test
of gpt_ocr.py line 61 (here `bubble_xyxy = (5, 5, 3, 3)` with `x1 >= x2`) is
returned with its `text` left unchanged (`"abc"`), not set to the empty
string as the claim states for bad coordinates. -/
theorem c9_counterexample :
    (processImage "key" (fun c => c) (fun _ => .ok "b64")
        (fun _ => .ok ⟨200, ⟨none, none, some "hello", none, ""⟩⟩)
        ⟨10, 10⟩ [⟨(0, 0, 1, 1), some (5, 5, 3, 3), "abc"⟩]).map
          (fun b => b.text) = ["abc"] ∧ "abc" ≠ "" := by
  constructor
  · rfl
  · decide

/-- Claim C9 (amended): `process_image` never propagates a per-block
exception and always returns the input list with its length unchanged, the
i-th output block being the per-block result for the i-th input block; on a
per-block exception (encoding failure, or the missing-API-key `ValueError`
raised by `_get_gpt_ocr`) the block's text is set to the empty string, and a
request exception or a non-200 API status also yield the empty string (via
`_get_gpt_ocr` returning `""`); but when the coordinate validity test fails,
no exception is raised and the block is left entirely unchanged — its text
is not set to the empty string. -/
theorem c9_process_image_amended (apiKey : String)
    (adjust : Int × Int × Int × Int → Int × Int × Int × Int)
    (encode : Int × Int × Int × Int → Except String String)
    (request : String → Except String HttpResp)
    (img : OImage) (blkList : List OcrBlk) (i : Nat) (blk : OcrBlk)
    (b64 e : String) (resp : HttpResp)
    (h : blkList[i]? = some blk) :
    (processImage apiKey adjust encode request img blkList).length =
      blkList.length ∧
    (processImage apiKey adjust encode request img blkList)[i]? =
      some (ocrBlockStep apiKey adjust encode request img blk) ∧
    (validCoords (effCoords adjust blk) img = false →
      ocrBlockStep apiKey adjust encode request img blk = blk) ∧
    (validCoords (effCoords adjust blk) img = true →
      encode (effCoords adjust blk) = .error e →
      ocrBlockStep apiKey adjust encode request img blk = { blk with text := "" }) ∧
    (validCoords (effCoords adjust blk) img = true →
      encode (effCoords adjust blk) = .ok b64 →
      apiKey.isEmpty = true →
      ocrBlockStep apiKey adjust encode request img blk = { blk with text := "" }) ∧
    (validCoords (effCoords adjust blk) img = true →
      encode (effCoords adjust blk) = .ok b64 →
      apiKey.isEmpty = false →
      request b64 = .error e →
      ocrBlockStep apiKey adjust encode request img blk = { blk with text := "" }) ∧
    (validCoords (effCoords adjust blk) img = true →
      encode (effCoords adjust blk) = .ok b64 →
      apiKey.isEmpty = false →
      request b64 = .ok resp →
      resp.status ≠ 200 →
      ocrBlockStep apiKey adjust encode request img blk = { blk with text := "" }) := by
  refine ⟨by simp [processImage], by simp [processImage, h], ?_, ?_, ?_, ?_, ?_⟩
  · intro hv
    simp [ocrBlockStep, hv]
  · intro hv henc
    simp [ocrBlockStep, hv, henc, Except.bind]
  · intro hv henc hkey
    simp [ocrBlockStep, hv, henc, Except.bind, getGptOcr, hkey]
  · intro hv henc hkey hreq
    simp [ocrBlockStep, hv, henc, Except.bind, getGptOcr, hkey, hreq]
  · intro hv henc hkey hreq hst
    simp [ocrBlockStep, hv, henc, Except.bind, getGptOcr, hkey, hreq, hst]

/-- Witness for the amended claim C9 at a concrete input: a valid-coordinate
block whose HTTP request fails gets `text = ""`, and the list length is
preserved. -/
theorem c9_process_image_amended_witness :
    (processImage "key" (fun c => c) (fun _ => .ok "b64")
        (fun _ => .error "connection error") ⟨10, 10⟩
        [⟨(0, 0, 1, 1), none, "old"⟩]).length = 1 ∧
    (processImage "key" (fun c => c) (fun _ => .ok "b64")
        (fun _ => .error "connection error") ⟨10, 10⟩
        [⟨(0, 0, 1, 1), none, "old"⟩])[0]? =
      some (ocrBlockStep "key" (fun c => c) (fun _ => .ok "b64")
        (fun _ => .error "connection error") ⟨10, 10⟩ ⟨(0, 0, 1, 1), none, "old"⟩) ∧
    ocrBlockStep "key" (fun c => c) (fun _ => .ok "b64")
        (fun _ => .error "connection error") ⟨10, 10⟩ ⟨(0, 0, 1, 1), none, "old"⟩ =
      ⟨(0, 0, 1, 1), none, ""⟩ := by
  have hthm := c9_process_image_amended "key" (fun c => c) (fun _ => .ok "b64")
    (fun _ => .error "connection error") ⟨10, 10⟩
    [⟨(0, 0, 1, 1), none, "old"⟩] 0 ⟨(0, 0, 1, 1), none, "old"⟩
    "b64" "connection error" ⟨200, ⟨none, none, none, none, ""⟩⟩ (by rfl)
  exact ⟨hthm.1, hthm.2.1, hthm.2.2.2.2.2.1 (by decide) (by rfl) (by decide) (by rfl)⟩

/-!
## Flush-block claims (C2, C5)
-/

theorem markSkipped_idem (msg : String) (r : ImageRecord) :
    markSkipped msg (markSkipped msg r) = markSkipped msg r := rfl

theorem foldl_markSkipped_getElem? (msg : String) :
    ∀ (batch : List Nat) (recs : List ImageRecord) (j : Nat),
      (batch.foldl
          (fun rs i => rs.set i (markSkipped msg (rs.getD i default))) recs)[j]? =
        (recs[j]?).map (fun r => if j ∈ batch then markSkipped msg r else r)
  | [], recs, j => by simp
  | i :: is, recs, j => by
      rw [List.foldl_cons, foldl_markSkipped_getElem? msg is]
      by_cases hij : j = i
      · subst hij
        rw [List.getElem?_set_self']
        cases hrj : recs[j]? with
        | none => simp
        | some r =>
            have hgetD : recs.getD j default = r := by
              simp [List.getD, hrj]
            simp only [hgetD, Option.map_map, Option.map_some', List.mem_cons,
              true_or, if_pos]
            by_cases hmem : j ∈ is <;>
              simp [hmem, markSkipped_idem]
      · rw [List.getElem?_set_ne (fun h => hij h.symm)]
        congr 1
        funext r
        simp [List.mem_cons, hij]

/-- Claim C2: when the single batched translation call raises, every record
of the current batch — and only those — is marked skipped with that same
error message (records at other indices of `image_batches_data` are
unchanged), and the batch accumulator is cleared by the flush. -/
theorem c2_batch_failure_isolation (cancel : CancelOracle)
    (translate : TranslateOracle) (s : LoopState) (msg : String) (j : Nat)
    (hb : s.batch ≠ [])
    (hcomb : (combineBatch s.recs s.batch).1 ≠ [])
    (hcancel : cancel s.checks = false)
    (herr : translate (s.recs.getD (s.batch.headD 0) default).sourceLang
        (s.recs.getD (s.batch.headD 0) default).targetLang
        (s.recs.getD (s.batch.headD 0) default).image
        (combineBatch s.recs s.batch).1 = .error msg) :
    ((flushBlock cancel translate s).recs)[j]? =
      (s.recs[j]?).map (fun r => if j ∈ s.batch then markSkipped msg r else r) ∧
    (flushBlock cancel translate s).batch = [] := by
  have hnot : ¬ ((combineBatch s.recs s.batch).1.isEmpty = true ∨
      s.batch.isEmpty = true) := by
    simp [List.isEmpty_iff, hcomb, hb]
  rw [flushBlock]
  rw [if_neg hnot, if_neg (by simp [hcancel])]
  constructor
  · show ((flushPerform translate s.recs s.batch).1)[j]? = _
    simp only [flushPerform]
    rw [herr]
    exact foldl_markSkipped_getElem? msg s.batch s.recs j
  · rfl

/-- Witness for claim C2: a concrete two-record state whose one-record batch
fails to translate — the batched record is marked skipped with the error
message, the other record is untouched, and the batch is cleared. -/
theorem c2_batch_failure_isolation_witness :
    ((flushBlock (fun _ => false) (fun _ _ _ _ => .error "boom")
        ⟨[⟨"a", 0, 7, [1], "English", "Georgian", false, ""⟩,
          ⟨"b", 1, 8, [2], "English", "Georgian", false, ""⟩], [0], [], 5, false⟩).recs)[0]? =
      some ⟨"a", 0, 7, [1], "English", "Georgian", true, "boom"⟩ ∧
    ((flushBlock (fun _ => false) (fun _ _ _ _ => .error "boom")
        ⟨[⟨"a", 0, 7, [1], "English", "Georgian", false, ""⟩,
          ⟨"b", 1, 8, [2], "English", "Georgian", false, ""⟩], [0], [], 5, false⟩).recs)[1]? =
      some ⟨"b", 1, 8, [2], "English", "Georgian", false, ""⟩ ∧
    (flushBlock (fun _ => false) (fun _ _ _ _ => .error "boom")
        ⟨[⟨"a", 0, 7, [1], "English", "Georgian", false, ""⟩,
          ⟨"b", 1, 8, [2], "English", "Georgian", false, ""⟩], [0], [], 5, false⟩).batch = [] := by
  have h0 := c2_batch_failure_isolation (fun _ => false)
    (fun _ _ _ _ => .error "boom")
    ⟨[⟨"a", 0, 7, [1], "English", "Georgian", false, ""⟩,
      ⟨"b", 1, 8, [2], "English", "Georgian", false, ""⟩], [0], [], 5, false⟩
    "boom" 0 (by decide) (by decide) rfl rfl
  have h1 := c2_batch_failure_isolation (fun _ => false)
    (fun _ _ _ _ => .error "boom")
    ⟨[⟨"a", 0, 7, [1], "English", "Georgian", false, ""⟩,
      ⟨"b", 1, 8, [2], "English", "Georgian", false, ""⟩], [0], [], 5, false⟩
    "boom" 1 (by decide) (by decide) rfl rfl
  refine ⟨?_, ?_, h0.2⟩
  · rw [h0.1]; decide
  · rw [h1.1]; decide

theorem combineBatch_fst (recs : List ImageRecord) (batch : List Nat) :
    (combineBatch recs batch).1 =
      (batch.map (fun i => (recs.getD i default).blkList)).flatten := by
  rw [combineBatch, combineBatchGo_spec]
  simp

/-- Claim C5: flushing a non-empty batch (whose records all carry non-empty
block lists, as the pipeline guarantees) performs exactly one translation
call, built from the source and target languages of the first record of the
batch and passing the first record's decoded original image as context, over
the combined block list of all records of the batch; and the batch is
cleared afterwards whether the call succeeds or fails. -/
theorem c5_flush_single_translate_call (cancel : CancelOracle)
    (translate : TranslateOracle) (s : LoopState)
    (hb : s.batch ≠ [])
    (hval : ∀ j ∈ s.batch, (s.recs.getD j default).blkList ≠ [])
    (hcancel : cancel s.checks = false) :
    (flushBlock cancel translate s).events =
      s.events ++ [PEvent.translateCall
        (s.recs.getD (s.batch.headD 0) default).sourceLang
        (s.recs.getD (s.batch.headD 0) default).targetLang
        (s.recs.getD (s.batch.headD 0) default).image
        (combineBatch s.recs s.batch).1] ∧
    (flushBlock cancel translate s).batch = [] := by
  obtain ⟨b, bs, hsb⟩ := List.exists_cons_of_ne_nil hb
  have hbmem : b ∈ s.batch := hsb ▸ List.mem_cons_self b bs
  have hcomb : (combineBatch s.recs s.batch).1 ≠ [] := by
    rw [combineBatch_fst]
    intro hemp
    exact hval b hbmem
      (List.flatten_eq_nil_iff.mp hemp _ (List.mem_map_of_mem _ hbmem))
  have hnot : ¬ ((combineBatch s.recs s.batch).1.isEmpty = true ∨
      s.batch.isEmpty = true) := by
    simp [List.isEmpty_iff, hcomb, hb]
  rw [flushBlock]
  rw [if_neg hnot, if_neg (by simp [hcancel])]
  refine ⟨?_, rfl⟩
  show s.events ++ (flushPerform translate s.recs s.batch).2 = _
  simp only [flushPerform]
  cases htr : translate (s.recs.getD (s.batch.headD 0) default).sourceLang
      (s.recs.getD (s.batch.headD 0) default).targetLang
      (s.recs.getD (s.batch.headD 0) default).image
      (combineBatch s.recs s.batch).1 <;>
    rfl

/-- Witness for claim C5 at a concrete two-record batch with a succeeding
translation call. -/
theorem c5_flush_single_translate_call_witness :
    (flushBlock (fun _ => false) (fun _ _ _ blks => .ok blks)
        ⟨[⟨"a", 0, 7, [1, 2], "English", "Georgian", false, ""⟩,
          ⟨"b", 1, 8, [3], "French", "German", false, ""⟩], [0, 1], [], 3, false⟩).events =
      [PEvent.translateCall "English" "Georgian" 7 [1, 2, 3]] ∧
    (flushBlock (fun _ => false) (fun _ _ _ blks => .ok blks)
        ⟨[⟨"a", 0, 7, [1, 2], "English", "Georgian", false, ""⟩,
          ⟨"b", 1, 8, [3], "French", "German", false, ""⟩], [0, 1], [], 3, false⟩).batch = [] := by
  have h := c5_flush_single_translate_call (fun _ => false)
    (fun _ _ _ blks => .ok blks)
    ⟨[⟨"a", 0, 7, [1, 2], "English", "Georgian", false, ""⟩,
      ⟨"b", 1, 8, [3], "French", "German", false, ""⟩], [0, 1], [], 3, false⟩
    (by decide) (by decide) rfl
  refine ⟨?_, h.2⟩
  rw [h.1]; decide

/-!
## Archiving-pass claims (C7, C8)
-/

theorem stepArchive_events_grow (cancel : CancelOracle) (i : Nat)
    (a : ArchiveInput) (s : ArchState) :
    s.events <+: (stepArchive cancel i a s).events := by
  simp only [stepArchive]
  repeat' split
  all_goals try simp only [List.append_assoc]
  all_goals first
    | exact List.prefix_rfl
    | exact List.prefix_append _ _

theorem runArchAux_events_grow (cancel : CancelOracle) :
    ∀ (l : List ArchiveInput) (i : Nat) (s : ArchState),
      s.events <+: (runArchAux cancel i l s).events
  | [], i, s => List.prefix_rfl
  | a :: rest, i, s => by
      rw [runArchAux]
      exact (stepArchive_events_grow cancel i a s).trans
        (runArchAux_events_grow cancel rest (i + 1) (stepArchive cancel i a s))

theorem runArchAux_mem_events (cancel : CancelOracle) (e : AEvent)
    (l : List ArchiveInput) (i : Nat) (s : ArchState) (h : e ∈ s.events) :
    e ∈ (runArchAux cancel i l s).events :=
  (runArchAux_events_grow cancel l i s).subset h

/-- Characterization of one archiver iteration when the pass is active, the
cancellation flag is never observed, and `make` succeeds: both cleanup steps
run inside the same iteration. -/
theorem stepArchive_active_ok (cancel : CancelOracle) (i : Nat)
    (a : ArchiveInput) (s : ArchState)
    (hh : s.halted = false) (he : s.error = none)
    (h1 : cancel s.checks = false) (h2 : cancel (s.checks + 1) = false)
    (h3 : cancel (s.checks + 2) = false) (hok : a.makeResult = .ok ()) :
    stepArchive cancel i a s =
      { s with
        events := s.events ++
          ([AEvent.progressA i 1, AEvent.progressA i 2,
            AEvent.makeCall i a.name, AEvent.progressA i 3] ++
           (if a.saveDirExists then [AEvent.rmSaveDir i a.name] else []) ++
           (if a.checkFromEmpty then [AEvent.rmCheckFrom i a.name] else [])),
        checks := s.checks + 3 } := by
  unfold stepArchive
  rw [if_neg (by simp [hh, he])]
  simp only [h1, h2, hok, Bool.false_eq_true, if_false]
  simp only [h3, Bool.false_eq_true, if_false]
  by_cases h4 : a.saveDirExists <;> by_cases h5 : a.checkFromEmpty <;>
    simp [h4, h5]

/-- Characterization of one archiver iteration when `make` raises: the
exception is recorded (it propagates, there is no `try` around the call) and
no cleanup events are produced. -/
theorem stepArchive_active_err (cancel : CancelOracle) (i : Nat)
    (a : ArchiveInput) (s : ArchState) (e : String)
    (hh : s.halted = false) (he : s.error = none)
    (h1 : cancel s.checks = false) (h2 : cancel (s.checks + 1) = false)
    (herr : a.makeResult = .error e) :
    stepArchive cancel i a s =
      { s with
        events := s.events ++ [AEvent.progressA i 1, AEvent.progressA i 2,
          AEvent.makeCall i a.name],
        checks := s.checks + 2,
        error := some e } := by
  unfold stepArchive
  rw [if_neg (by simp [hh, he])]
  simp [h1, h2, herr]

theorem stepArchive_inactive (cancel : CancelOracle) (i : Nat)
    (a : ArchiveInput) (s : ArchState) (h : s.error.isSome = true) :
    stepArchive cancel i a s = s := by
  unfold stepArchive
  rw [if_pos (Or.inr h)]

/-- Claim C7 counterexample: with two archives where the first `make` raises,
the exception propagates out of the loop — the first archive's `make` is
called, but the second archive is never attempted, contradicting the claim
that each archive is attempted independently. -/
theorem c7_counterexample :
    AEvent.makeCall 0 "a1" ∈
      (runArchives (fun _ => false)
        [⟨"a1", .error "boom", true, true⟩, ⟨"a2", .ok (), true, true⟩]).events ∧
    AEvent.makeCall 1 "a2" ∉
      (runArchives (fun _ => false)
        [⟨"a1", .error "boom", true, true⟩, ⟨"a2", .ok (), true, true⟩]).events ∧
    (runArchives (fun _ => false)
        [⟨"a1", .error "boom", true, true⟩, ⟨"a2", .ok (), true, true⟩]).error =
      some "boom" := by
  decide

theorem runArchAux_makeCall (cancel : CancelOracle)
    (hnc : ∀ k, cancel k = false) :
    ∀ (l : List ArchiveInput) (i base : Nat) (s : ArchState),
      s.halted = false → s.error = none →
      (∀ j, j < i → exceptIsOk (l.getD j default).makeResult = true) →
      i < l.length →
      AEvent.makeCall (base + i) (l.getD i default).name ∈
        (runArchAux cancel base l s).events
  | [], i, base, s => by
      intro _ _ _ hi
      exact absurd hi (Nat.not_lt_zero i)
  | a :: rest, i, base, s => by
      intro hh he hok hi
      rw [runArchAux]
      cases i with
      | zero =>
          apply runArchAux_mem_events
          cases hmk : a.makeResult with
          | ok u =>
              cases u
              rw [stepArchive_active_ok cancel base a s hh he (hnc _) (hnc _)
                (hnc _) hmk]
              simp [List.getD]
          | error e =>
              rw [stepArchive_active_err cancel base a s e hh he (hnc _) (hnc _)
                hmk]
              simp [List.getD]
      | succ k =>
          have hmk : a.makeResult = .ok () := by
            have h0 := hok 0 (Nat.succ_pos k)
            cases hm : a.makeResult with
            | ok u => cases u; rfl
            | error e => rw [List.getD_cons_zero, hm] at h0; exact absurd h0 (by simp [exceptIsOk])
          have hstep := stepArchive_active_ok cancel base a s hh he (hnc _)
            (hnc _) (hnc _) hmk
          have hh' : (stepArchive cancel base a s).halted = false := by
            rw [hstep]; exact hh
          have he' : (stepArchive cancel base a s).error = none := by
            rw [hstep]; exact he
          have hok' : ∀ j, j < k → exceptIsOk (rest.getD j default).makeResult = true := by
            intro j hj
            have := hok (j + 1) (Nat.succ_lt_succ hj)
            rwa [List.getD_cons_succ] at this
          have hi' : k < rest.length := Nat.lt_of_succ_lt_succ (by simpa using hi)
          have := runArchAux_makeCall cancel hnc rest k (base + 1)
            (stepArchive cancel base a s) hh' he' hok' hi'
          rw [List.getD_cons_succ]
          have harith : base + (k + 1) = (base + 1) + k := by omega
          rw [harith]
          exact this

/-- Claim C7 (amended): in the archiving pass an exception from one
archive's `make` call propagates (there is no error isolation) and aborts
the pass, so later archives are not attempted; but as long as every earlier
archive's `make` succeeded (and no cancellation is observed), archive `i` is
attempted — iterations share no other state that could block it. -/
theorem c7_archiver_amended (cancel : CancelOracle)
    (archives : List ArchiveInput) (i : Nat)
    (hnc : ∀ k, cancel k = false)
    (hok : ∀ j, j < i → exceptIsOk (archives.getD j default).makeResult = true)
    (hi : i < archives.length) :
    AEvent.makeCall i (archives.getD i default).name ∈
      (runArchives cancel archives).events := by
  have := runArchAux_makeCall cancel hnc archives i 0 archInit rfl rfl hok hi
  simpa using this

/-- Witness for the amended claim C7: with two succeeding archives the
second archive's `make` call occurs. -/
theorem c7_archiver_amended_witness :
    AEvent.makeCall 1 "a2" ∈
      (runArchives (fun _ => false)
        [⟨"a1", .ok (), true, true⟩, ⟨"a2", .ok (), true, true⟩]).events := by
  have := c7_archiver_amended (fun _ => false)
    [⟨"a1", .ok (), true, true⟩, ⟨"a2", .ok (), true, true⟩] 1
    (fun _ => rfl) (by decide) (by decide)
  simpa using this

/-- Claim C8 counterexample: one archive, with the cancellation flag first
observed set at the read that follows `make` (pipeline.py line 450).  The
pass halts with the archive created but with no `rmtree` cleanup performed —
cancellation took effect mid-archive, between creation and cleanup. -/
theorem c8_counterexample :
    (runArchives (fun k => k == 2) [⟨"arch", .ok (), true, true⟩]).events =
      [AEvent.progressA 0 1, AEvent.progressA 0 2, AEvent.makeCall 0 "arch",
       AEvent.progressA 0 3] ∧
    (runArchives (fun k => k == 2) [⟨"arch", .ok (), true, true⟩]).halted = true ∧
    AEvent.rmSaveDir 0 "arch" ∉
      (runArchives (fun k => k == 2) [⟨"arch", .ok (), true, true⟩]).events := by
  decide

/-- Claim C8 (amended): cancellation within one archiver iteration is
observed at three points — twice before the `make` call and once after it,
*before* the temporary-directory cleanup.  A cancellation observed at the
post-`make` read stops the pass with the archive created but its cleanup
skipped, so cancellation is not only honored between archives. -/
theorem c8_archiver_cancel_amended (cancel : CancelOracle) (i : Nat)
    (a : ArchiveInput) (s : ArchState)
    (hh : s.halted = false) (he : s.error = none)
    (h1 : cancel s.checks = false) (h2 : cancel (s.checks + 1) = false)
    (h3 : cancel (s.checks + 2) = true) (hok : a.makeResult = .ok ()) :
    stepArchive cancel i a s =
      { s with
        events := s.events ++ [AEvent.progressA i 1, AEvent.progressA i 2,
          AEvent.makeCall i a.name, AEvent.progressA i 3],
        checks := s.checks + 3,
        halted := true } := by
  unfold stepArchive
  rw [if_neg (by simp [hh, he])]
  simp [h1, h2, h3, hok]

/-- Witness for the amended claim C8 at the initial state. -/
theorem c8_archiver_cancel_amended_witness :
    stepArchive (fun k => k == 2) 0 ⟨"arch", .ok (), true, true⟩ archInit =
      { archInit with
        events := [AEvent.progressA 0 1, AEvent.progressA 0 2,
          AEvent.makeCall 0 "arch", AEvent.progressA 0 3],
        checks := 3,
        halted := true } := by
  have := c8_archiver_cancel_amended (fun k => k == 2) 0
    ⟨"arch", .ok (), true, true⟩ archInit rfl rfl rfl rfl rfl rfl
  simpa using this

/-!
## Main-loop infrastructure lemmas
-/

theorem flushBlock_events_grow (cancel : CancelOracle)
    (translate : TranslateOracle) (s : LoopState) :
    s.events <+: (flushBlock cancel translate s).events := by
  simp only [flushBlock]
  split
  · exact List.prefix_rfl
  · split
    · exact List.prefix_rfl
    · exact List.prefix_append _ _

theorem flushBlock_events_grow' (cancel : CancelOracle)
    (translate : TranslateOracle) (s : LoopState) (l : List PEvent)
    (h : l <+: s.events) : l <+: (flushBlock cancel translate s).events :=
  h.trans (flushBlock_events_grow cancel translate s)

theorem flushBlock_cancelled (cancel : CancelOracle)
    (translate : TranslateOracle) (s : LoopState)
    (hcf : cancel s.checks = false) :
    (flushBlock cancel translate s).cancelled = s.cancelled := by
  simp only [flushBlock]
  split
  · rfl
  · rw [if_neg (by simp [hcf])]

theorem flushBlock_batch_nil (cancel : CancelOracle)
    (translate : TranslateOracle) (s : LoopState)
    (hcf : cancel s.checks = false) :
    (flushBlock cancel translate s).batch = [] := by
  simp only [flushBlock]
  split
  · rfl
  · rw [if_neg (by simp [hcf])]

theorem stepImageBody_events_grow (cancel : CancelOracle)
    (translate : TranslateOracle) (total idx : Nat) (inp : ImgInput)
    (s : LoopState) :
    s.events <+: (stepImageBody cancel translate total idx inp s).events := by
  simp only [stepImageBody]
  repeat' split
  all_goals try simp only [List.append_assoc]
  all_goals first
    | exact List.prefix_rfl
    | exact List.prefix_append _ _
    | exact flushBlock_events_grow' _ _ _ _ List.prefix_rfl

theorem stepImage_events_grow (cancel : CancelOracle)
    (translate : TranslateOracle) (total idx : Nat) (inp : ImgInput)
    (s : LoopState) :
    s.events <+: (stepImage cancel translate total idx inp s).events := by
  simp only [stepImage]
  split
  · exact List.prefix_rfl
  · exact (List.prefix_append s.events [PEvent.begin idx]).trans
      (stepImageBody_events_grow cancel translate total idx inp
        { s with events := s.events ++ [PEvent.begin idx] })

theorem runMainAux_events_grow (cancel : CancelOracle)
    (translate : TranslateOracle) (total : Nat) :
    ∀ (l : List ImgInput) (idx : Nat) (s : LoopState),
      s.events <+: (runMainAux cancel translate total idx l s).events
  | [], idx, s => List.prefix_rfl
  | inp :: rest, idx, s => by
      rw [runMainAux]
      exact (stepImage_events_grow cancel translate total idx inp s).trans
        (runMainAux_events_grow cancel translate total rest (idx + 1) _)

theorem postStep_events_grow (cancel : CancelOracle) (inputs : List ImgInput)
    (r : ImageRecord) (s : LoopState) :
    s.events <+: (postStep cancel inputs r s).events := by
  simp only [postStep]
  repeat' split
  all_goals try simp only [List.append_assoc]
  all_goals first
    | exact List.prefix_rfl
    | exact List.prefix_append _ _

theorem runPostAux_events_grow (cancel : CancelOracle)
    (inputs : List ImgInput) :
    ∀ (rs : List ImageRecord) (s : LoopState),
      s.events <+: (runPostAux cancel inputs rs s).events
  | [], s => List.prefix_rfl
  | r :: rest, s => by
      rw [runPostAux]
      exact (postStep_events_grow cancel inputs r s).trans
        (runPostAux_events_grow cancel inputs rest _)

theorem runPostAux_events_grow' (cancel : CancelOracle)
    (inputs : List ImgInput) (rs : List ImageRecord) (s : LoopState)
    (l : List PEvent) (h : l <+: s.events) :
    l <+: (runPostAux cancel inputs rs s).events :=
  h.trans (runPostAux_events_grow cancel inputs rs s)

theorem runPipeline_events_grow (cancel : CancelOracle)
    (translate : TranslateOracle) (inputs : List ImgInput) :
    (runMainLoop cancel translate inputs).events <+:
      (runPipeline cancel translate inputs).events := by
  simp only [runPipeline]
  split
  · exact List.prefix_rfl
  · split
    · exact List.prefix_rfl
    · exact runPostAux_events_grow' _ _ _ _ _ List.prefix_rfl

theorem stepImage_cancelled_false (cancel : CancelOracle)
    (translate : TranslateOracle) (total idx : Nat) (inp : ImgInput)
    (s : LoopState) (hnc : ∀ k, cancel k = false)
    (hs : s.cancelled = false) :
    (stepImage cancel translate total idx inp s).cancelled = false := by
  simp only [stepImage, hs, Bool.false_eq_true, if_false]
  simp only [stepImageBody, hnc, Bool.false_eq_true, if_false, hs]
  repeat' split
  all_goals first
    | rfl
    | (rw [flushBlock_cancelled _ _ _ (hnc _)])

theorem runMainAux_cancelled_false (cancel : CancelOracle)
    (translate : TranslateOracle) (total : Nat) (hnc : ∀ k, cancel k = false) :
    ∀ (l : List ImgInput) (idx : Nat) (s : LoopState),
      s.cancelled = false →
      (runMainAux cancel translate total idx l s).cancelled = false
  | [], idx, s => fun hs => hs
  | inp :: rest, idx, s => fun hs => by
      rw [runMainAux]
      exact runMainAux_cancelled_false cancel translate total hnc rest (idx + 1) _
        (stepImage_cancelled_false cancel translate total idx inp s hnc hs)

/-!
## OCR-failure claim (C6)
-/

/-- Characterization of one image step when the decoded image's OCR raises:
the three-line skip treatment runs after the two preceding cancellation
checks, and processing falls through to the next image. -/
theorem stepImage_ocr_error (cancel : CancelOracle) (translate : TranslateOracle)
    (total idx : Nat) (inp : ImgInput) (s : LoopState) (img : Nat) (msg : String)
    (hnc : ∀ k, cancel k = false) (hs : s.cancelled = false)
    (hdec : inp.decoded = some img) (hdet : inp.detected.isEmpty = false)
    (hocr : inp.ocrResult = .error msg) :
    stepImage cancel translate total idx inp s =
      { s with
        events := s.events ++
          (PEvent.begin idx :: skipEvents inp.path img "OCR" msg),
        checks := s.checks + 2 } := by
  simp only [stepImage, hs, Bool.false_eq_true, if_false]
  simp only [stepImageBody, hdec, hnc, Bool.false_eq_true, if_false, hdet, hocr]
  simp [List.append_assoc, hs]

theorem stepImage_begin_mem (cancel : CancelOracle) (translate : TranslateOracle)
    (total idx : Nat) (inp : ImgInput) (s : LoopState)
    (hs : s.cancelled = false) :
    PEvent.begin idx ∈ (stepImage cancel translate total idx inp s).events := by
  simp only [stepImage, hs, Bool.false_eq_true, if_false]
  have h : PEvent.begin idx ∈
      (({ s with events := s.events ++ [PEvent.begin idx] } : LoopState)).events := by
    simp
  exact (stepImageBody_events_grow cancel translate total idx inp _).subset h

theorem runMainAux_all_begins (cancel : CancelOracle)
    (translate : TranslateOracle) (total : Nat) (hnc : ∀ k, cancel k = false) :
    ∀ (l : List ImgInput) (idx : Nat) (s : LoopState),
      s.cancelled = false →
      ∀ j, idx ≤ j → j < idx + l.length →
        PEvent.begin j ∈ (runMainAux cancel translate total idx l s).events
  | [], idx, s => by
      intro _ j h1 h2
      simp only [List.length_nil, Nat.add_zero] at h2
      omega
  | inp :: rest, idx, s => by
      intro hs j h1 h2
      rw [runMainAux]
      rcases Nat.eq_or_lt_of_le h1 with h | h
      · exact h ▸ (runMainAux_events_grow cancel translate total rest (idx + 1)
          _).subset (stepImage_begin_mem cancel translate total idx inp s hs)
      · exact runMainAux_all_begins cancel translate total hnc rest (idx + 1) _
          (stepImage_cancelled_false cancel translate total idx inp s hnc hs)
          j h (by simpa [Nat.add_assoc, Nat.add_comm 1 rest.length] using h2)

theorem runMainAux_ocr_skip (cancel : CancelOracle)
    (translate : TranslateOracle) (total : Nat) (inp : ImgInput)
    (img : Nat) (msg : String) (hnc : ∀ k, cancel k = false)
    (hdec : inp.decoded = some img) (hdet : inp.detected.isEmpty = false)
    (hocr : inp.ocrResult = .error msg) :
    ∀ (l : List ImgInput) (k idx : Nat) (s : LoopState),
      s.cancelled = false → l[k]? = some inp →
      PEvent.skipSave inp.path img ∈
          (runMainAux cancel translate total idx l s).events ∧
      PEvent.imageSkipped inp.path "OCR" msg ∈
          (runMainAux cancel translate total idx l s).events ∧
      PEvent.logSkip inp.path ∈
          (runMainAux cancel translate total idx l s).events
  | [], k, idx, s => by
      intro _ hk
      simp at hk
  | x :: rest, k, idx, s => by
      intro hs hk
      rw [runMainAux]
      cases k with
      | zero =>
          rw [List.getElem?_cons_zero, Option.some_inj] at hk
          subst hk
          have hstep := stepImage_ocr_error cancel translate total idx x s img
            msg hnc hs hdec hdet hocr
          have hpre := runMainAux_events_grow cancel translate total rest
            (idx + 1) (stepImage cancel translate total idx x s)
          refine ⟨hpre.subset ?_, hpre.subset ?_, hpre.subset ?_⟩ <;>
            rw [hstep] <;> simp [skipEvents]
      | succ k =>
          rw [List.getElem?_cons_succ] at hk
          exact runMainAux_ocr_skip cancel translate total inp img msg hnc
            hdec hdet hocr rest k (idx + 1) _
            (stepImage_cancelled_false cancel translate total idx x s hnc hs) hk

/-- Claim C6: if the OCR stage raises for the `k`-th image of a run without
cancellation, the unmodified original image is written as that image's
translated output (`skip_save`), a skip event naming the "OCR" stage and the
exception message is emitted, the path is appended to the skip log, and the
run is never aborted — every image of the run is still visited (each
per-image start emission occurs). -/
theorem c6_ocr_failure_isolated (cancel : CancelOracle)
    (translate : TranslateOracle) (inputs : List ImgInput) (k : Nat)
    (inp : ImgInput) (img : Nat) (msg : String)
    (hnc : ∀ n, cancel n = false)
    (hin : inputs[k]? = some inp)
    (hdec : inp.decoded = some img)
    (hdet : inp.detected.isEmpty = false)
    (hocr : inp.ocrResult = .error msg) :
    PEvent.skipSave inp.path img ∈
        (runPipeline cancel translate inputs).events ∧
    PEvent.imageSkipped inp.path "OCR" msg ∈
        (runPipeline cancel translate inputs).events ∧
    PEvent.logSkip inp.path ∈ (runPipeline cancel translate inputs).events ∧
    ((List.range inputs.length).all
      (fun j => decide (PEvent.begin j ∈
        (runPipeline cancel translate inputs).events))) = true := by
  have hpre := runPipeline_events_grow cancel translate inputs
  have hmain := runMainAux_ocr_skip cancel translate inputs.length inp img msg
    hnc hdec hdet hocr inputs k 0 initState rfl hin
  refine ⟨hpre.subset hmain.1, hpre.subset hmain.2.1, hpre.subset hmain.2.2, ?_⟩
  rw [List.all_eq_true]
  intro j hj
  rw [List.mem_range] at hj
  exact decide_eq_true (hpre.subset
    (runMainAux_all_begins cancel translate inputs.length hnc inputs 0
      initState rfl j (Nat.zero_le j) (by simpa using hj)))

/-- Witness for claim C6: a concrete two-image run whose first image fails
OCR; the second image is still processed. -/
theorem c6_ocr_failure_isolated_witness :
    PEvent.skipSave "a" 7 ∈
      (runPipeline (fun _ => false) (fun _ _ _ b => .ok b)
        [⟨"a", "English", "Georgian", some 7, [1], .error "ocr boom", .ok ()⟩,
         ⟨"b", "English", "Georgian", some 8, [2], .ok [2], .ok ()⟩]).events ∧
    PEvent.imageSkipped "a" "OCR" "ocr boom" ∈
      (runPipeline (fun _ => false) (fun _ _ _ b => .ok b)
        [⟨"a", "English", "Georgian", some 7, [1], .error "ocr boom", .ok ()⟩,
         ⟨"b", "English", "Georgian", some 8, [2], .ok [2], .ok ()⟩]).events ∧
    PEvent.logSkip "a" ∈
      (runPipeline (fun _ => false) (fun _ _ _ b => .ok b)
        [⟨"a", "English", "Georgian", some 7, [1], .error "ocr boom", .ok ()⟩,
         ⟨"b", "English", "Georgian", some 8, [2], .ok [2], .ok ()⟩]).events ∧
    ((List.range 2).all
      (fun j => decide (PEvent.begin j ∈
        (runPipeline (fun _ => false) (fun _ _ _ b => .ok b)
          [⟨"a", "English", "Georgian", some 7, [1], .error "ocr boom", .ok ()⟩,
           ⟨"b", "English", "Georgian", some 8, [2], .ok [2], .ok ()⟩]).events))) =
      true :=
  c6_ocr_failure_isolated (fun _ => false) (fun _ _ _ b => .ok b)
    [⟨"a", "English", "Georgian", some 7, [1], .error "ocr boom", .ok ()⟩,
     ⟨"b", "English", "Georgian", some 8, [2], .ok [2], .ok ()⟩]
    0 ⟨"a", "English", "Georgian", some 7, [1], .error "ocr boom", .ok ()⟩
    7 "ocr boom" (fun _ => rfl) rfl rfl rfl rfl

/-!
## Flush-trigger claim (C3)
-/

/-- When the image at the final index of the run is fully processed up to
accumulation, the flush condition `index == total_images - 1` fires and the
batch is cleared. -/
theorem stepImage_last_batch_nil (cancel : CancelOracle)
    (translate : TranslateOracle) (total idx : Nat) (inp : ImgInput)
    (s : LoopState) (img : Nat) (sorted : List Nat)
    (hnc : ∀ k, cancel k = false) (hs : s.cancelled = false)
    (hdec : inp.decoded = some img) (hdet : inp.detected.isEmpty = false)
    (hocr : inp.ocrResult = .ok sorted) (hidx : idx = total - 1) :
    (stepImage cancel translate total idx inp s).batch = [] := by
  simp only [stepImage, hs, Bool.false_eq_true, if_false]
  simp only [stepImageBody, hdec, hnc, Bool.false_eq_true, if_false, hdet, hocr]
  rw [if_pos (Or.inr hidx)]
  exact flushBlock_batch_nil _ _ _ (hnc _)

theorem runMainAux_batch_nil (cancel : CancelOracle)
    (translate : TranslateOracle) (total : Nat) (hnc : ∀ k, cancel k = false) :
    ∀ (l : List ImgInput) (idx : Nat) (s : LoopState),
      s.cancelled = false →
      (∀ lastInp, l.getLast? = some lastInp →
        (∃ img, lastInp.decoded = some img) ∧
        lastInp.detected.isEmpty = false ∧
        (∃ sorted, lastInp.ocrResult = .ok sorted)) →
      idx + l.length = total → l ≠ [] →
      (runMainAux cancel translate total idx l s).batch = []
  | [], idx, s => by
      intro _ _ _ hne
      exact absurd rfl hne
  | [inp], idx, s => by
      intro hs hlast htot _
      obtain ⟨⟨img, hdec⟩, hdet, sorted, hocr⟩ := hlast inp rfl
      rw [runMainAux, runMainAux]
      exact stepImage_last_batch_nil cancel translate total idx inp s img
        sorted hnc hs hdec hdet hocr (by simp at htot; omega)
  | inp :: x :: rest, idx, s => by
      intro hs hlast htot _
      rw [runMainAux]
      refine runMainAux_batch_nil cancel translate total hnc (x :: rest)
        (idx + 1) _
        (stepImage_cancelled_false cancel translate total idx inp s hnc hs)
        ?_ (by simp at htot ⊢; omega) (by simp)
      intro lastInp hl
      exact hlast lastInp (by rwa [List.getLast?_cons_cons])

/-- Claim C3 counterexample: a two-image run (no cancellation) whose first
image is fully processed and accumulated and whose second — and last — image
fails to decode.  The skip `continue` at pipeline.py line 184 jumps past the
flush condition at line 253, so even though the current image is the last in
the run, no flush is invoked: the main loop ends with the accumulator still
holding the first record, no translation call was ever made, the record is
not marked skipped, and it is nevertheless finalized (its rendered output is
saved from untranslated blocks). -/
theorem c3_counterexample :
    (runMainLoop (fun _ => false) (fun _ _ _ b => .ok b)
      [⟨"a", "English", "Georgian", some 7, [1], .ok [1], .ok ()⟩,
       ⟨"b", "English", "Georgian", none, [], .ok [], .ok ()⟩]).batch = [0] ∧
    hasTranslateCall
      (runPipeline (fun _ => false) (fun _ _ _ b => .ok b)
        [⟨"a", "English", "Georgian", some 7, [1], .ok [1], .ok ()⟩,
         ⟨"b", "English", "Georgian", none, [], .ok [], .ok ()⟩]).events = false ∧
    ((runPipeline (fun _ => false) (fun _ _ _ b => .ok b)
        [⟨"a", "English", "Georgian", some 7, [1], .ok [1], .ok ()⟩,
         ⟨"b", "English", "Georgian", none, [], .ok [], .ok ()⟩]).recs.map
      (fun r => r.skipped)) = [false] ∧
    PEvent.saveTranslated "a" ∈
      (runPipeline (fun _ => false) (fun _ _ _ b => .ok b)
        [⟨"a", "English", "Georgian", some 7, [1], .ok [1], .ok ()⟩,
         ⟨"b", "English", "Georgian", none, [], .ok [], .ok ()⟩]).events := by
  decide

/-- Claim C3 (amended): the flush condition (batch full, or current image
index equal to `total_images - 1`) is only evaluated after a record has been
accumulated (pipeline.py line 253 is below the `continue` statements of
lines 184, 198 and 212), so in a run without cancellation every accumulated
record is flushed before finalization *provided the last image of the run
reaches the accumulation point* (it decodes, has text blocks and passes
OCR); when trailing images are skipped before accumulation, the records
accumulated since the previous flush are never flushed and reach
finalization untranslated. -/
theorem c3_flush_amended (cancel : CancelOracle) (translate : TranslateOracle)
    (inputs : List ImgInput)
    (hnc : ∀ k, cancel k = false)
    (hne : inputs ≠ [])
    (hlast : ∀ lastInp, inputs.getLast? = some lastInp →
      (∃ img, lastInp.decoded = some img) ∧
      lastInp.detected.isEmpty = false ∧
      (∃ sorted, lastInp.ocrResult = .ok sorted)) :
    (runMainLoop cancel translate inputs).batch = [] :=
  runMainAux_batch_nil cancel translate inputs.length hnc inputs 0 initState
    rfl hlast (by simp) hne

/-- Witness for the amended claim C3 on a concrete two-image run whose last
image is accumulated: the accumulator is empty after the main loop. -/
theorem c3_flush_amended_witness :
    (runMainLoop (fun _ => false) (fun _ _ _ b => .ok b)
      [⟨"a", "English", "Georgian", some 7, [1], .ok [1], .ok ()⟩,
       ⟨"b", "English", "Georgian", some 8, [2], .ok [2], .ok ()⟩]).batch = [] :=
  c3_flush_amended (fun _ => false) (fun _ _ _ b => .ok b)
    [⟨"a", "English", "Georgian", some 7, [1], .ok [1], .ok ()⟩,
     ⟨"b", "English", "Georgian", some 8, [2], .ok [2], .ok ()⟩]
    (fun _ => rfl) (by decide)
    (fun lastInp hl => by
      rw [List.getLast?_cons_cons, List.getLast?_singleton,
        Option.some_inj] at hl
      subst hl
      exact ⟨⟨8, rfl⟩, rfl, ⟨[2], rfl⟩⟩)

/-!
## Skip-copy claim (C4)
-/

theorem hasSkipSaveFor_of_mem (p : String) (img : Nat) (evs : List PEvent)
    (h : PEvent.skipSave p img ∈ evs) : hasSkipSaveFor p evs = true := by
  rw [hasSkipSaveFor, List.any_eq_true]
  exact ⟨_, h, by simp⟩

theorem hasSkipSaveFor_mono (p : String) (evs t : List PEvent)
    (h : hasSkipSaveFor p evs = true) :
    hasSkipSaveFor p (evs ++ t) = true := by
  rw [hasSkipSaveFor, List.any_append]
  rw [hasSkipSaveFor] at h
  simp [h]

theorem eventsPaired_nil : eventsPaired [] :=
  fun _ _ _ hm => absurd hm (List.not_mem_nil _)

theorem eventsPaired_append (evs block : List PEvent) (hev : eventsPaired evs)
    (hblock : ∀ p st m, PEvent.imageSkipped p st m ∈ block →
      ∃ img, PEvent.skipSave p img ∈ block) :
    eventsPaired (evs ++ block) := by
  intro p st m hmem
  rcases List.mem_append.mp hmem with h | h
  · exact hasSkipSaveFor_mono p evs block (hev p st m h)
  · obtain ⟨img, hsk⟩ := hblock p st m h
    exact hasSkipSaveFor_of_mem p img _ (List.mem_append_right evs hsk)

theorem skipEvents_paired (path : String) (img : Nat) (stage msg p st m : String)
    (h : PEvent.imageSkipped p st m ∈ skipEvents path img stage msg) :
    ∃ i, PEvent.skipSave p i ∈ skipEvents path img stage msg := by
  simp only [skipEvents, List.mem_cons, List.not_mem_nil, or_false] at h
  rcases h with h | h | h
  · exact absurd h (by simp)
  · injection h with h1 h2 h3
    exact ⟨img, by simp [skipEvents, h1]⟩
  · exact absurd h (by simp)

theorem flushPerform_no_imageSkipped (translate : TranslateOracle)
    (recs : List ImageRecord) (batch : List Nat) (p st m : String) :
    PEvent.imageSkipped p st m ∉ (flushPerform translate recs batch).2 := by
  simp only [flushPerform]
  split <;> simp

theorem flushBlock_eventsPaired (cancel : CancelOracle)
    (translate : TranslateOracle) (s : LoopState)
    (h : eventsPaired s.events) :
    eventsPaired (flushBlock cancel translate s).events := by
  simp only [flushBlock]
  split
  · exact h
  · split
    · exact h
    · exact eventsPaired_append _ _ h
        (fun p st m hm =>
          absurd hm (flushPerform_no_imageSkipped translate s.recs s.batch p st m))

theorem stepImageBody_eventsPaired (cancel : CancelOracle)
    (translate : TranslateOracle) (total idx : Nat) (inp : ImgInput)
    (s : LoopState) (h : eventsPaired s.events) :
    eventsPaired (stepImageBody cancel translate total idx inp s).events := by
  simp only [stepImageBody]
  repeat' split
  all_goals first
    | exact h
    | exact eventsPaired_append _ _ h
        (fun p st m hm => skipEvents_paired _ _ _ _ _ _ _ hm)
    | exact eventsPaired_append _ _ h (fun p st m hm => absurd hm (by simp))
    | exact flushBlock_eventsPaired _ _ _ h

theorem stepImage_eventsPaired (cancel : CancelOracle)
    (translate : TranslateOracle) (total idx : Nat) (inp : ImgInput)
    (s : LoopState) (h : eventsPaired s.events) :
    eventsPaired (stepImage cancel translate total idx inp s).events := by
  simp only [stepImage]
  split
  · exact h
  · exact stepImageBody_eventsPaired cancel translate total idx inp _
      (eventsPaired_append _ _ h (fun p st m hm => absurd hm (by simp)))

theorem runMainAux_eventsPaired (cancel : CancelOracle)
    (translate : TranslateOracle) (total : Nat) :
    ∀ (l : List ImgInput) (idx : Nat) (s : LoopState),
      eventsPaired s.events →
      eventsPaired (runMainAux cancel translate total idx l s).events
  | [], idx, s => fun h => h
  | inp :: rest, idx, s => fun h => by
      rw [runMainAux]
      exact runMainAux_eventsPaired cancel translate total rest (idx + 1) _
        (stepImage_eventsPaired cancel translate total idx inp s h)

theorem postStep_eventsPaired (cancel : CancelOracle) (inputs : List ImgInput)
    (r : ImageRecord) (s : LoopState) (h : eventsPaired s.events) :
    eventsPaired (postStep cancel inputs r s).events := by
  simp only [postStep]
  repeat' split
  all_goals first
    | exact h
    | exact eventsPaired_append _ _ h
        (fun p st m hm => skipEvents_paired _ _ _ _ _ _ _ hm)
    | exact eventsPaired_append _ _ h (fun p st m hm => absurd hm (by simp))

theorem runPostAux_eventsPaired (cancel : CancelOracle)
    (inputs : List ImgInput) :
    ∀ (rs : List ImageRecord) (s : LoopState),
      eventsPaired s.events →
      eventsPaired (runPostAux cancel inputs rs s).events
  | [], s => fun h => h
  | r :: rest, s => fun h => by
      rw [runPostAux]
      exact runPostAux_eventsPaired cancel inputs rest _
        (postStep_eventsPaired cancel inputs r s h)

theorem runPipeline_eventsPaired (cancel : CancelOracle)
    (translate : TranslateOracle) (inputs : List ImgInput) :
    eventsPaired (runPipeline cancel translate inputs).events := by
  have hmain : eventsPaired (runMainLoop cancel translate inputs).events :=
    runMainAux_eventsPaired cancel translate inputs.length inputs 0 initState
      eventsPaired_nil
  simp only [runPipeline]
  split
  · exact hmain
  · split
    · exact hmain
    · exact runPostAux_eventsPaired cancel inputs _ _ hmain

/-- Claim C4 counterexample: a run whose single image cannot be decoded.
The decode-failure path (pipeline.py lines 181-184) only logs the skip and
`continue`s — no `skip_save` copy is written for it (indeed nothing further
is written at all), so output counts do not match input counts for
unreadable images. -/
theorem c4_counterexample :
    (runPipeline (fun _ => false) (fun _ _ _ b => .ok b)
      [⟨"a", "English", "Georgian", none, [], .ok [], .ok ()⟩]).events =
      [PEvent.begin 0, PEvent.logSkip "a"] ∧
    hasSkipSaveFor "a"
      (runPipeline (fun _ => false) (fun _ _ _ b => .ok b)
        [⟨"a", "English", "Georgian", none, [], .ok [], .ok ()⟩]).events = false := by
  decide

/-- Claim C4 (amended): every image that is skipped at a stage past a
successful decode — empty detection, OCR failure, batch-translation failure,
or text-validation failure in the finalizer — does get a copy of its
original image written under `translated_images` with the `_translated`
suffix (every `image_skipped` emission in any run trace is paired with a
`skip_save` write for the same path); but an image whose decode from disk
fails is only appended to the skip log, with no output copy, so output
counts can be lower than input counts when images are unreadable. -/
theorem c4_skip_copy_amended (cancel : CancelOracle)
    (translate : TranslateOracle) (inputs : List ImgInput) (p st m : String)
    (h : PEvent.imageSkipped p st m ∈
      (runPipeline cancel translate inputs).events) :
    hasSkipSaveFor p (runPipeline cancel translate inputs).events = true :=
  runPipeline_eventsPaired cancel translate inputs p st m h

/-- Witness for the amended claim C4: a run whose single image yields no
text blocks — its skip emission is paired with a written copy. -/
theorem c4_skip_copy_amended_witness :
    hasSkipSaveFor "a"
      (runPipeline (fun _ => false) (fun _ _ _ b => .ok b)
        [⟨"a", "English", "Georgian", some 7, [], .ok [], .ok ()⟩]).events = true :=
  c4_skip_copy_amended (fun _ => false) (fun _ _ _ b => .ok b)
    [⟨"a", "English", "Georgian", some 7, [], .ok [], .ok ()⟩]
    "a" "Text Blocks" "" (by decide)

end MangaTranslator
